import Mathlib

/-!
Verification of the retrieval core of `pagina.py` (Instituto 13 de Julio chatbot).

The file shallowly embeds the retrieval-relevant functions of the source:

* `cargar_base_de_conocimiento` (source lines 30-41): JSON knowledge loader.
  File access and JSON parsing are external collaborators and are passed in
  as functions `fs : String → Option String` (`none` = `FileNotFoundError`)
  and `parseJson : String → Option Val` (`none` = `json.JSONDecodeError`).
  The function returns the caller-visible value together with the list of
  `st.error` messages it displayed.
* `aplanar_conocimiento` (lines 43-74): flattener from the knowledge
  document to the list of searchable texts.  Python values are modelled by
  the inductive `Val` (strings / dicts / lists, insertion-ordered); dicts
  are association lists, matching Python >= 3.7 insertion-order iteration.
  Python exceptions (`AttributeError` raised by `.items()` on a non-dict or
  `.get` on a non-dict) are modelled with `Except String`.
* `buscar_contexto_semantico` (lines 92-116): semantic retriever.  The
  embedding model (`SentenceTransformer.encode`) and sklearn's
  `cosine_similarity` are external collaborators; they are parameters
  (`EmbeddingModel`, `cosineSim`), and similarity scores are rationals
  (the float arithmetic itself is outside the ranking policy being
  verified).  `np.argsort(similitudes)[::-1]` is modelled as a stable
  ascending sort of the index list reversed: NumPy's argsort ranks
  ascending and is stable on the short corpora at hand (its introsort
  runs plain insertion sort below 16 elements), which is exactly
  `List.insertionSort` by `≤` on scores, then `List.reverse` for `[::-1]`.
* the prompt assembly of `main` (lines 300-305): `armar_historial_para_api`.
-/

/-- A Python/JSON value as it occurs in the knowledge document: a string,
a dict (insertion-ordered association list, string keys) or a list.
Schema leaves (§3 of the spec) are strings, so these three constructors
cover every value the flattener inspects. -/
inductive Val where
  | vStr : String → Val
  | vObj : List (String × Val) → Val
  | vArr : List Val → Val

/-- A Python dict with string keys, in insertion order. -/
abbrev Obj := List (String × Val)

/-- Dict lookup `o[k]` / `o.get(k)`: first entry with the key (Python dicts
have unique keys, so first = only). -/
def getO (o : Obj) (k : String) : Option Val :=
  (o.find? (fun p => p.1 == k)).map (fun p => p.2)

/-- Python `k in o`. -/
def hasKey (o : Obj) (k : String) : Bool := (getO o k).isSome

/-- Interpolation of a value into an f-string.  The knowledge schema has
string leaves; the other cases stand in for Python's repr of a non-string
value and are never reached by schema-conformant documents. -/
def pyShow : Val → String
  | .vStr s => s
  | .vObj _ => "<dict>"
  | .vArr _ => "<list>"

/-- Python `o.get(k, dflt)` immediately interpolated into an f-string,
with `o` known to be a dict (so `.get` cannot raise). -/
def pyGetStrD (o : Obj) (k : String) (dflt : String) : String :=
  match getO o k with
  | some v => pyShow v
  | none => dflt

/-- Python truthiness of `o.get(k)` (`None`, `''`, `{}` and `[]` are falsy). -/
def truthy : Option Val → Bool
  | none => false
  | some (.vStr s) => !(s == "")
  | some (.vObj o) => !o.isEmpty
  | some (.vArr l) => !l.isEmpty

/-- Python iteration `for x in v`: a list yields its items, a dict its keys,
a string its one-character substrings. -/
def pyIter : Val → List Val
  | .vStr s => s.data.map (fun c => Val.vStr (String.mk [c]))
  | .vObj o => o.map (fun p => Val.vStr p.1)
  | .vArr l => l

/-- Python `s.replace('_', ' ')` (the only replacement the source performs):
a character-for-character substitution. -/
def replaceUS (s : String) : String :=
  String.mk (s.data.map (fun c => if c = '_' then ' ' else c))

/-- One pass of Python `s.title()`: a character is uppercased when the
previous character is not alphabetic, lowercased otherwise.  (ASCII case
mapping; the source's topic keys are ASCII.) -/
def titleChars : Bool → List Char → List Char
  | _, [] => []
  | prevAlpha, c :: rest =>
    (if prevAlpha then c.toLower else c.toUpper) :: titleChars c.isAlpha rest

/-- Python `s.title()`. -/
def pyTitle (s : String) : String := String.mk (titleChars false s.data)

/-- Python default whitespace set of `str.strip()`. -/
def isPySpace (c : Char) : Bool :=
  c == ' ' || c == '\t' || c == '\n' || c == '\r' || c == '\x0B' || c == '\x0C'

/-- Python `s.strip()`. -/
def pyStrip (s : String) : String :=
  String.mk (((s.data.dropWhile isPySpace).reverse.dropWhile isPySpace).reverse)

/-- Source line 71: the text appended for one evaluation item,
`f"Fecha: {eval_item.get('fecha', 'N/A')}, Temas: {eval_item.get('temas', 'N/A')}. "`.
Only reached when the item is a dict (otherwise `.get` raises, see
`renderEvalItem`); the catch-all branch is unreachable through it. -/
def evalLine (e : Val) : String :=
  match e with
  | .vObj o => "Fecha: " ++ pyGetStrD o "fecha" "N/A" ++ ", Temas: " ++ pyGetStrD o "temas" "N/A" ++ ". "
  | _ => ""

/-- Source line 71 with Python's failure mode: `eval_item.get(...)` raises
`AttributeError` when the iterated item is not a dict. -/
def renderEvalItem (e : Val) : Except String String :=
  match e with
  | .vObj _ => .ok (evalLine e)
  | _ => .error "AttributeError: get"

/-- Source lines 63-67: the fixed part of one subject's synthesized text,
`"Materia: {name.title'd} de {year}. {content} Profesor/a: {profesor|No asignado}. "`. -/
def subjectBase (year subject_name : String) (sd : Obj) : String :=
  "Materia: " ++ pyTitle (replaceUS subject_name) ++ " de " ++ replaceUS year ++ ". "
  ++ pyGetStrD sd "content" "" ++ " "
  ++ "Profesor/a: " ++ pyGetStrD sd "profesor" "No asignado" ++ ". "

/-- Source lines 63-72 before `.strip()`: the full subject text, with the
evaluation block appended when `subject_data.get('evaluaciones')` is truthy. -/
def subjectText (year subject_name : String) (sd : Obj) : String :=
  subjectBase year subject_name sd ++
    (if truthy (getO sd "evaluaciones") then
      "Próximas Evaluaciones: " ++
        String.join ((pyIter ((getO sd "evaluaciones").getD (Val.vArr []))).map evalLine)
     else "")

/-- Source lines 63-72: the subject text as appended to `documentos`
(`info.strip()`), or the exception raised while iterating malformed
evaluation items. -/
def renderSubject (year subject_name : String) (sd : Obj) : Except String String :=
  if truthy (getO sd "evaluaciones") then
    ((pyIter ((getO sd "evaluaciones").getD (Val.vArr []))).mapM renderEvalItem).map
      (fun parts =>
        pyStrip (subjectBase year subject_name sd ++ "Próximas Evaluaciones: " ++ String.join parts))
  else
    .ok (pyStrip (subjectBase year subject_name sd))

/-- Source lines 52-57: the body of the first loop of `aplanar_conocimiento`
for a single top-level entry: skip the reserved key, then append the topic
rendering when the value is a dict containing `'content'`. -/
def topStep (docs : List String) (p : String × Val) : List String :=
  if p.1 == "material_academico" then docs
  else match p.2 with
    | .vObj data =>
      if hasKey data "content" then
        docs ++ ["Información sobre " ++ pyTitle (replaceUS p.1) ++ ": "
                  ++ pyShow ((getO data "content").getD (.vStr ""))]
      else docs
    | _ => docs

/-- Source lines 48-57: the first loop of `aplanar_conocimiento`. -/
def topDocs (base : Obj) : List String := base.foldl topStep []

/-- Python `.items()`: raises `AttributeError` on a non-dict. -/
def asItems (v : Val) : Except String Obj :=
  match v with
  | .vObj o => .ok o
  | _ => .error "AttributeError: items"

/-- Source lines 61-72: the body of the subject loop for one
`(subject_name, subject_data)` entry; a non-dict `subject_data` is skipped
by the `isinstance` check of line 62. -/
def subjStep (year : String) (docs : List String) (p : String × Val) : Except String (List String) :=
  match p.2 with
  | .vObj sd => (renderSubject year p.1 sd).map (fun d => docs ++ [d])
  | _ => .ok docs

/-- Source lines 60-72: the body of the year loop: `subjects.items()`
(which raises on a non-dict) followed by the subject loop. -/
def yearStep (docs : List String) (p : String × Val) : Except String (List String) := do
  let subjects ← asItems p.2
  subjects.foldlM (subjStep p.1) docs

/-- Source lines 59-72: the `material_academico` section of
`aplanar_conocimiento`.  `"material_academico" in base` and the subsequent
`base["material_academico"]` are folded into one lookup. -/
def acadDocs (base : Obj) (docs : List String) : Except String (List String) :=
  match getO base "material_academico" with
  | some v => do
      let years ← asItems v
      years.foldlM yearStep docs
  | none => .ok docs

/-- Source lines 43-74: `aplanar_conocimiento`.  `none` models the `None`
the loader returns on failure; the final filter is the comprehension
`[doc for doc in documentos if doc]` (a string is truthy iff non-empty). -/
def aplanar_conocimiento (b : Option Obj) : Except String (List String) :=
  match b with
  | none => .ok []
  | some base => do
      let docs ← acadDocs base (topDocs base)
      .ok (docs.filter (fun d => !(d == "")))

/-- Source line 37's displayed message for a missing file. -/
def msgNotFound (ruta : String) : String :=
  "Error Crítico: No se encontró el archivo '" ++ ruta ++ "'."

/-- Source line 40's displayed message for unparsable JSON. -/
def msgBadJson (ruta : String) : String :=
  "Error Crítico: El archivo '" ++ ruta ++ "' no tiene un formato JSON válido."

/-- Source lines 30-41: `cargar_base_de_conocimiento`.  Returns the pair of
the caller-visible return value and the list of `st.error` messages
displayed.  `fs` models the file system (`none` = `FileNotFoundError` on
`open`), `parseJson` models `json.load` (`none` = `JSONDecodeError`). -/
def cargar_base_de_conocimiento (fs : String → Option String)
    (parseJson : String → Option Val) (ruta_archivo : String) :
    Option Val × List String :=
  match fs ruta_archivo with
  | none => (none, [msgNotFound ruta_archivo])
  | some contenido =>
    match parseJson contenido with
    | none => (none, [msgBadJson ruta_archivo])
    | some v => (some v, [])

/-- The external embedding model of `buscar_contexto_semantico`:
`hasEncode` models `hasattr(_modelo, 'encode')`, `encode` the query
embedding `_modelo.encode([query])[0]`. -/
structure EmbeddingModel where
  hasEncode : Bool
  encode : String → List ℚ

/-- Comparison of two corpus positions by their similarity score,
`similitudes[i] <= similitudes[j]`: the ordering `np.argsort` sorts by. -/
def simLe (sims : List ℚ) (i j : ℕ) : Prop := sims.getD i 0 ≤ sims.getD j 0

instance (sims : List ℚ) : DecidableRel (simLe sims) :=
  fun i j => inferInstanceAs (Decidable (sims.getD i 0 ≤ sims.getD j 0))

/-- Source line 102, `np.argsort(similitudes)[::-1]`: the index list sorted
ascending by score — stably, as NumPy's argsort behaves on these short
arrays (plain insertion sort below 16 elements) — and then reversed. -/
def rankingDesc (sims : List ℚ) : List ℕ :=
  (List.insertionSort (simLe sims) (List.range sims.length)).reverse

/-- Source lines 107-112, one iteration of the acceptance walk: the text at
`idx` is appended when its score strictly exceeds `umbral`, fewer than
`top_k` distinct texts are accepted so far (`len(textos_ya_anadidos)` is the
length of the duplicate-free accepted list), and the text is not yet
accepted. -/
def acceptStep (sims : List ℚ) (documentos : List String) (top_k : ℕ) (umbral : ℚ)
    (acc : List String) (idx : ℕ) : List String :=
  if umbral < sims.getD idx 0 ∧ acc.length < top_k then
    if documentos.getD idx "" ∈ acc then acc else acc ++ [documentos.getD idx ""]
  else acc

/-- Source lines 104-112: the ordered list of texts accepted into
`contexto_encontrado` (each accepted text contributes one `"- {texto}\n"`
bullet, in acceptance order). -/
def textosAceptados (sims : List ℚ) (documentos : List String) (top_k : ℕ) (umbral : ℚ) :
    List String :=
  (rankingDesc sims).foldl (acceptStep sims documentos top_k umbral) []

/-- The concatenated context string built from the accepted texts. -/
def renderContexto (ts : List String) : String :=
  String.join (ts.map (fun t => "- " ++ t ++ "\n"))

/-- Source lines 99-100: the similarity row
`cosine_similarity(_modelo.encode([query]), embeddings_corpus)[0]`,
index-aligned with the corpus. -/
def similitudes (cosineSim : List ℚ → List ℚ → ℚ) (_modelo : EmbeddingModel)
    (query : String) (corpus : List (List ℚ)) : List ℚ :=
  corpus.map (cosineSim (_modelo.encode query))

/-- Source lines 92-116: `buscar_contexto_semantico`.  `cosineSim` is
sklearn's `cosine_similarity` on a pair of vectors (external collaborator);
`similitudes` is its row against every corpus vector.  The final branch is
line 114's `if not contexto_encontrado` — the built string is empty exactly
when no text was accepted. -/
def buscar_contexto_semantico (cosineSim : List ℚ → List ℚ → ℚ) (query : String)
    (_modelo : EmbeddingModel) (documentos : List String)
    (embeddings_corpus : Option (List (List ℚ))) (top_k : ℕ) (umbral : ℚ) : String :=
  match embeddings_corpus with
  | none => "La base de conocimientos no está lista."
  | some corpus =>
    if !_modelo.hasEncode then "La base de conocimientos no está lista."
    else
      let ts := textosAceptados (similitudes cosineSim _modelo query corpus) documentos top_k umbral
      if ts.isEmpty then "No se encontró información relevante para tu consulta."
      else renderContexto ts

/-- One chat message, `{"role": ..., "content": ...}`. -/
structure Mensaje where
  role : String
  content : String

/-- Source line 304: `[msg for msg in st.session_state.mensajes if msg['role'] != 'system']`. -/
def mensajesRelevantes (mensajes : List Mensaje) : List Mensaje :=
  mensajes.filter (fun m => m.role != "system")

/-- Python `l[-n:]`: the last `min n (length l)` elements. -/
def lastN {α : Type} (n : ℕ) (l : List α) : List α := l.drop (l.length - n)

/-- Source lines 301-305: the message list handed to the model — one system
message embedding the retrieval context, then the non-system history
truncated to its last 10 turns. -/
def armar_historial_para_api (system_prompt contexto_rag : String)
    (mensajes : List Mensaje) : List Mensaje :=
  ⟨"system", system_prompt ++ "\n\nCONTEXTO RELEVANTE:\n" ++ contexto_rag⟩
    :: lastN 10 (mensajesRelevantes mensajes)

/-- A top-level entry the first flattener loop contributes nothing for:
not a dict, or a dict without a `'content'` key (source line 55). -/
def skippedTop (v : Val) : Bool :=
  match v with
  | .vObj o => !(hasKey o "content")
  | _ => true

/-- A concrete embedding model used in witnesses and counterexamples. -/
def modeloDemo : EmbeddingModel := ⟨true, fun _ => []⟩

/-- A concrete similarity function used in witnesses and counterexamples:
the first component of the corpus vector (the abstract `cosineSim` slot
lets any score profile be realised; identical texts get identical vectors
and hence identical scores, as with a real encoder). -/
def headSim : List ℚ → List ℚ → ℚ := fun _ v => v.headD 0

/-- Concrete subject record (spec §8 Scenario B, extended with a topic-notes
entry `apuntes` carrying a name and a link). -/
def sdDemo : Obj :=
  [("content", Val.vStr "Matemática I"),
   ("profesor", Val.vStr "Juan Pérez"),
   ("evaluaciones", Val.vArr
     [Val.vObj [("fecha", Val.vStr "10/06"), ("temas", Val.vStr "Álgebra")],
      Val.vObj [("fecha", Val.vStr "12/07"), ("temas", Val.vStr "Geometría")]]),
   ("apuntes", Val.vArr
     [Val.vObj [("nombre", Val.vStr "Guía 1"), ("link", Val.vStr "https://ejemplo.com/guia1")]])]

/-- Concrete knowledge document wrapping `sdDemo` under
`material_academico / 2024 / matematica`. -/
def baseDemo : Obj :=
  [("material_academico", Val.vObj [("2024", Val.vObj [("matematica", Val.vObj sdDemo)])])]

/-- The text `aplanar_conocimiento` produces for `sdDemo` (evaluations
inline, no newline, no trace of the `apuntes` entry). -/
def docDemo : String :=
  "Materia: Matematica de 2024. Matemática I Profesor/a: Juan Pérez. Próximas Evaluaciones: Fecha: 10/06, Temas: Álgebra. Fecha: 12/07, Temas: Geometría."

/-- Substring test used to state the absence of a fragment in an output. -/
def hasSubstr (s sub : String) : Bool :=
  (List.range (s.data.length + 1)).any (fun k => sub.data.isPrefixOf (s.data.drop k))

/-!
### Helper lemmas: the acceptance walk of the semantic retriever
-/

/-- One acceptance step either leaves the accumulator unchanged or appends
the text at `idx`, and appending happens only under line 108's and line
110's conditions. -/
theorem acceptStep_eq_or (sims : List ℚ) (docs : List String) (k : ℕ) (u : ℚ)
    (acc : List String) (idx : ℕ) :
    acceptStep sims docs k u acc idx = acc ∨
      (u < sims.getD idx 0 ∧ acc.length < k ∧ docs.getD idx "" ∉ acc ∧
        acceptStep sims docs k u acc idx = acc ++ [docs.getD idx ""]) := by
  unfold acceptStep
  by_cases h1 : u < sims.getD idx 0 ∧ acc.length < k
  · by_cases h2 : docs.getD idx "" ∈ acc
    · left; rw [if_pos h1, if_pos h2]
    · right; exact ⟨h1.1, h1.2, h2, by rw [if_pos h1, if_neg h2]⟩
  · left; rw [if_neg h1]

/-- The acceptance walk never creates duplicates. -/
theorem acceptFold_nodup (sims : List ℚ) (docs : List String) (k : ℕ) (u : ℚ) :
    ∀ (r : List ℕ) (acc : List String), acc.Nodup →
      (r.foldl (acceptStep sims docs k u) acc).Nodup := by
  intro r
  induction r with
  | nil => intro acc h; simpa using h
  | cons idx r ih =>
    intro acc h
    rw [List.foldl_cons]
    rcases acceptStep_eq_or sims docs k u acc idx with heq | ⟨_, _, hnot, heq⟩
    · rw [heq]; exact ih acc h
    · rw [heq]
      refine ih _ (List.Nodup.append h (List.nodup_singleton _) ?_)
      intro x hx hx1
      rw [List.mem_singleton] at hx1
      exact hnot (hx1 ▸ hx)

/-- The acceptance walk never grows the accumulator beyond `top_k`. -/
theorem acceptFold_length (sims : List ℚ) (docs : List String) (k : ℕ) (u : ℚ) :
    ∀ (r : List ℕ) (acc : List String), acc.length ≤ k →
      (r.foldl (acceptStep sims docs k u) acc).length ≤ k := by
  intro r
  induction r with
  | nil => intro acc h; simpa using h
  | cons idx r ih =>
    intro acc h
    rw [List.foldl_cons]
    rcases acceptStep_eq_or sims docs k u acc idx with heq | ⟨_, hlen, _, heq⟩
    · rw [heq]; exact ih acc h
    · rw [heq]
      refine ih _ ?_
      simp only [List.length_append, List.length_singleton]
      omega

/-- Every text the acceptance walk accepts is the document at some
in-range index whose score strictly exceeds the threshold. -/
theorem acceptFold_sound (sims : List ℚ) (docs : List String) (k : ℕ) (u : ℚ) :
    ∀ (r : List ℕ) (acc : List String),
      (∀ t ∈ acc, ∃ i, i < sims.length ∧ u < sims.getD i 0 ∧ docs.getD i "" = t) →
      (∀ i ∈ r, i < sims.length) →
      ∀ t ∈ r.foldl (acceptStep sims docs k u) acc,
        ∃ i, i < sims.length ∧ u < sims.getD i 0 ∧ docs.getD i "" = t := by
  intro r
  induction r with
  | nil => intro acc hacc _ t ht; exact hacc t (by simpa using ht)
  | cons idx r ih =>
    intro acc hacc hr t ht
    rw [List.foldl_cons] at ht
    rcases acceptStep_eq_or sims docs k u acc idx with heq | ⟨hu, _, _, heq⟩
    · rw [heq] at ht
      exact ih acc hacc (fun i hi => hr i (List.mem_cons_of_mem _ hi)) t ht
    · rw [heq] at ht
      refine ih _ ?_ (fun i hi => hr i (List.mem_cons_of_mem _ hi)) t ht
      intro s hs
      rcases List.mem_append.mp hs with hs | hs
      · exact hacc s hs
      · rw [List.mem_singleton] at hs
        exact ⟨idx, hr idx (List.mem_cons_self _ _), hu, hs.symm⟩

/-- When no walked index clears the threshold, nothing is accepted. -/
theorem acceptFold_nil_of_low (sims : List ℚ) (docs : List String) (k : ℕ) (u : ℚ) :
    ∀ (r : List ℕ), (∀ i ∈ r, ¬ u < sims.getD i 0) →
      r.foldl (acceptStep sims docs k u) [] = [] := by
  intro r
  induction r with
  | nil => intro _; rfl
  | cons idx r ih =>
    intro h
    rw [List.foldl_cons]
    have hstep : acceptStep sims docs k u [] idx = [] := by
      unfold acceptStep
      rw [if_neg]
      intro hc
      exact h idx (List.mem_cons_self _ _) hc.1
    rw [hstep]
    exact ih (fun i hi => h i (List.mem_cons_of_mem _ hi))

/-- The ranking is a permutation of the corpus index range. -/
theorem mem_rankingDesc (sims : List ℚ) (i : ℕ) :
    i ∈ rankingDesc sims ↔ i < sims.length := by
  unfold rankingDesc
  rw [List.mem_reverse, List.mem_insertionSort, List.mem_range]

/-- An increasing pair of indices below `n` is a sublist of `range n`. -/
theorem pair_sublist_range {i j n : ℕ} (hij : i < j) (hj : j < n) :
    List.Sublist [i, j] (List.range n) := by
  induction n with
  | zero => omega
  | succ m ih =>
    rw [List.range_succ]
    rcases Nat.lt_or_ge j m with h | h
    · exact (ih h).trans (List.sublist_append_left _ _)
    · have hjm : j = m := by omega
      subst hjm
      have h1 : List.Sublist [i] (List.range j) :=
        List.singleton_sublist.mpr (List.mem_range.mpr hij)
      exact List.Sublist.append h1 (List.Sublist.refl [j])

/-- The accepted-text list is duplicate-free. -/
theorem textosAceptados_nodup (sims : List ℚ) (docs : List String) (k : ℕ) (u : ℚ) :
    (textosAceptados sims docs k u).Nodup :=
  acceptFold_nodup sims docs k u (rankingDesc sims) [] List.nodup_nil

/-- At most `top_k` texts are accepted. -/
theorem textosAceptados_length (sims : List ℚ) (docs : List String) (k : ℕ) (u : ℚ) :
    (textosAceptados sims docs k u).length ≤ k :=
  acceptFold_length sims docs k u (rankingDesc sims) [] (by simp)

/-- Every accepted text sits at an index whose score clears the threshold. -/
theorem textosAceptados_sound (sims : List ℚ) (docs : List String) (k : ℕ) (u : ℚ) :
    ∀ t ∈ textosAceptados sims docs k u,
      ∃ i, i < sims.length ∧ u < sims.getD i 0 ∧ docs.getD i "" = t :=
  acceptFold_sound sims docs k u (rankingDesc sims) [] (by simp)
    (fun i hi => (mem_rankingDesc sims i).mp hi)

/-!
### Claims about the semantic retriever
-/

/-- Claim C1 (confirmed): for every query, corpus of flattened documents and
index-aligned embedding index, `buscar_contexto_semantico` renders exactly
the accepted-text list, which holds at most `top_k` distinct texts
(duplicate-free, length at most `top_k`), and every accepted text is the
document at an index whose cosine similarity to the query strictly exceeds
`umbral`. -/
theorem buscar_topk_umbral (cosineSim : List ℚ → List ℚ → ℚ) (query : String)
    (m : EmbeddingModel) (documentos : List String) (corpus : List (List ℚ))
    (top_k : ℕ) (umbral : ℚ) (hm : m.hasEncode = true) :
    buscar_contexto_semantico cosineSim query m documentos (some corpus) top_k umbral
        = (if (textosAceptados (similitudes cosineSim m query corpus) documentos top_k umbral).isEmpty
           then "No se encontró información relevante para tu consulta."
           else renderContexto (textosAceptados (similitudes cosineSim m query corpus) documentos top_k umbral))
      ∧ (textosAceptados (similitudes cosineSim m query corpus) documentos top_k umbral).length ≤ top_k
      ∧ (textosAceptados (similitudes cosineSim m query corpus) documentos top_k umbral).Nodup
      ∧ ∀ t ∈ textosAceptados (similitudes cosineSim m query corpus) documentos top_k umbral,
          ∃ i, i < (similitudes cosineSim m query corpus).length
            ∧ umbral < (similitudes cosineSim m query corpus).getD i 0
            ∧ documentos.getD i "" = t := by
  refine ⟨?_, textosAceptados_length _ _ _ _, textosAceptados_nodup _ _ _ _,
    textosAceptados_sound _ _ _ _⟩
  simp [buscar_contexto_semantico, hm]

/-- Witness for C1 at a concrete call. -/
theorem buscar_topk_umbral_witness :
    modeloDemo.hasEncode = true
    ∧ (textosAceptados (similitudes headSim modeloDemo "q" [[1]]) ["A"] 3 0).length ≤ 3
    ∧ (textosAceptados (similitudes headSim modeloDemo "q" [[1]]) ["A"] 3 0).Nodup
    ∧ buscar_contexto_semantico headSim "q" modeloDemo ["A"] (some [[1]]) 3 0
        = (if (textosAceptados (similitudes headSim modeloDemo "q" [[1]]) ["A"] 3 0).isEmpty
           then "No se encontró información relevante para tu consulta."
           else renderContexto (textosAceptados (similitudes headSim modeloDemo "q" [[1]]) ["A"] 3 0)) :=
  ⟨rfl,
   (buscar_topk_umbral headSim "q" modeloDemo ["A"] [[1]] 3 0 rfl).2.1,
   (buscar_topk_umbral headSim "q" modeloDemo ["A"] [[1]] 3 0 rfl).2.2.1,
   (buscar_topk_umbral headSim "q" modeloDemo ["A"] [[1]] 3 0 rfl).1⟩

/-- Claim C2 (confirmed): when no corpus vector's similarity strictly
exceeds the threshold, the retriever returns the literal
no-relevant-information message (and in particular no general-info
fallback, and no exception — the embedding is total). -/
theorem buscar_sin_resultados (cosineSim : List ℚ → List ℚ → ℚ) (query : String)
    (m : EmbeddingModel) (documentos : List String) (corpus : List (List ℚ))
    (top_k : ℕ) (umbral : ℚ) (hm : m.hasEncode = true)
    (hlow : ∀ v ∈ corpus, cosineSim (m.encode query) v ≤ umbral) :
    buscar_contexto_semantico cosineSim query m documentos (some corpus) top_k umbral
      = "No se encontró información relevante para tu consulta." := by
  have hnil : textosAceptados (similitudes cosineSim m query corpus) documentos top_k umbral = [] := by
    apply acceptFold_nil_of_low
    intro i hi
    have hlt : i < (similitudes cosineSim m query corpus).length := (mem_rankingDesc _ i).mp hi
    have hlen : i < corpus.length := by simpa [similitudes] using hlt
    have hval : (similitudes cosineSim m query corpus).getD i 0
        = cosineSim (m.encode query) corpus[i] := by
      rw [List.getD_eq_getElem _ _ hlt]
      simp [similitudes]
    rw [hval]
    exact not_lt.mpr (hlow _ (corpus.getElem_mem hlen))
  simp [buscar_contexto_semantico, hm, hnil]

/-- Witness for C2 at a concrete call whose only similarity is below the
threshold. -/
theorem buscar_sin_resultados_witness :
    modeloDemo.hasEncode = true
    ∧ (∀ v ∈ [[(1:ℚ)]], headSim (modeloDemo.encode "q") v ≤ 2)
    ∧ buscar_contexto_semantico headSim "q" modeloDemo ["A"] (some [[1]]) 3 2
        = "No se encontró información relevante para tu consulta." :=
  ⟨rfl, by decide,
   buscar_sin_resultados headSim "q" modeloDemo ["A"] [[1]] 3 2 rfl (by decide)⟩

/-- Counterexample to claim C3 as stated: in this concrete run the units at
indices 3 and 4 carry the identical text `"D"` and both strictly clear the
threshold, yet `"D"` appears zero times — not exactly once — in the result,
because three higher-ranked distinct texts exhaust `top_k = 3` first. -/
theorem dedup_texto_cex :
    ((0:ℚ) < (similitudes headSim modeloDemo "q" [[5],[4],[3],[1],[1]]).getD 3 0
      ∧ (0:ℚ) < (similitudes headSim modeloDemo "q" [[5],[4],[3],[1],[1]]).getD 4 0
      ∧ (["A","B","C","D","D"] : List String).getD 3 "" = (["A","B","C","D","D"] : List String).getD 4 "")
    ∧ "D" ∉ textosAceptados (similitudes headSim modeloDemo "q" [[5],[4],[3],[1],[1]]) ["A","B","C","D","D"] 3 0
    ∧ buscar_contexto_semantico headSim "q" modeloDemo ["A","B","C","D","D"]
        (some [[5],[4],[3],[1],[1]]) 3 0 = "- A\n- B\n- C\n" := by
  decide

/-- Claim C3 as amended: the retriever deduplicates by exact text equality —
the accepted list is duplicate-free, so a text shared by two indices that
both clear the threshold appears at most once (exactly once when accepted at
all) and counts once toward `top_k`; the rendered result is exactly the
accepted list's bullets. -/
theorem dedup_texto_amended (cosineSim : List ℚ → List ℚ → ℚ) (query : String)
    (m : EmbeddingModel) (documentos : List String) (corpus : List (List ℚ))
    (top_k : ℕ) (umbral : ℚ) (i j : ℕ) (hm : m.hasEncode = true) (_hij : i ≠ j)
    (_htext : documentos.getD i "" = documentos.getD j "")
    (_hi : umbral < (similitudes cosineSim m query corpus).getD i 0)
    (_hj : umbral < (similitudes cosineSim m query corpus).getD j 0) :
    (textosAceptados (similitudes cosineSim m query corpus) documentos top_k umbral).Nodup
    ∧ List.count (documentos.getD i "")
        (textosAceptados (similitudes cosineSim m query corpus) documentos top_k umbral) ≤ 1
    ∧ buscar_contexto_semantico cosineSim query m documentos (some corpus) top_k umbral
        = (if (textosAceptados (similitudes cosineSim m query corpus) documentos top_k umbral).isEmpty
           then "No se encontró información relevante para tu consulta."
           else renderContexto (textosAceptados (similitudes cosineSim m query corpus) documentos top_k umbral)) := by
  refine ⟨textosAceptados_nodup _ _ _ _, ?_, by simp [buscar_contexto_semantico, hm]⟩
  exact List.nodup_iff_count_le_one.mp (textosAceptados_nodup _ _ _ _) _

/-- Witness for the amended C3: two equal-text units both clear the
threshold and the text is accepted exactly once. -/
theorem dedup_texto_amended_witness :
    (modeloDemo.hasEncode = true ∧ (0:ℕ) ≠ 1
      ∧ (["D","D"] : List String).getD 0 "" = (["D","D"] : List String).getD 1 ""
      ∧ (0:ℚ) < (similitudes headSim modeloDemo "q" [[1],[1]]).getD 0 0
      ∧ (0:ℚ) < (similitudes headSim modeloDemo "q" [[1],[1]]).getD 1 0)
    ∧ ((textosAceptados (similitudes headSim modeloDemo "q" [[1],[1]]) ["D","D"] 3 0).Nodup
      ∧ List.count ((["D","D"] : List String).getD 0 "")
          (textosAceptados (similitudes headSim modeloDemo "q" [[1],[1]]) ["D","D"] 3 0) ≤ 1
      ∧ buscar_contexto_semantico headSim "q" modeloDemo ["D","D"] (some [[1],[1]]) 3 0
          = (if (textosAceptados (similitudes headSim modeloDemo "q" [[1],[1]]) ["D","D"] 3 0).isEmpty
             then "No se encontró información relevante para tu consulta."
             else renderContexto (textosAceptados (similitudes headSim modeloDemo "q" [[1],[1]]) ["D","D"] 3 0))) :=
  ⟨⟨rfl, by decide, by decide, by decide, by decide⟩,
   dedup_texto_amended headSim "q" modeloDemo ["D","D"] [[1],[1]] 3 0 0 1 rfl
     (by decide) (by decide) (by decide) (by decide)⟩

/-- Counterexample to claim C4 as stated: the units at indices 0 and 1 have
exactly equal similarity, yet the ranking is `[1, 0]` and the acceptance
order is `["B", "A"]` — the reverse of the original index order the claim
requires (`np.argsort` sorts ascending stably; the `[::-1]` reversal puts
equal-score units in descending index order). -/
theorem empate_orden_cex :
    (similitudes headSim modeloDemo "q" [[1],[1]]).getD 0 0
        = (similitudes headSim modeloDemo "q" [[1],[1]]).getD 1 0
    ∧ rankingDesc (similitudes headSim modeloDemo "q" [[1],[1]]) = [1, 0]
    ∧ textosAceptados (similitudes headSim modeloDemo "q" [[1],[1]]) ["A","B"] 3 0 = ["B","A"]
    ∧ buscar_contexto_semantico headSim "q" modeloDemo ["A","B"] (some [[1],[1]]) 3 0
        = "- B\n- A\n" := by
  decide

/-- Claim C4 as amended: at exactly equal similarity scores the walked
ranking places the unit with the larger original index first — the reverse
of original index order (the ascending argsort is stable, and the `[::-1]`
reversal flips equal-score runs). -/
theorem empate_orden_amended (sims : List ℚ) (i j : ℕ) (hij : i < j)
    (hj : j < sims.length) (heq : sims.getD i 0 = sims.getD j 0) :
    List.Sublist [j, i] (rankingDesc sims) := by
  unfold rankingDesc
  have hpair : List.Sublist [i, j]
      (List.insertionSort (simLe sims) (List.range sims.length)) :=
    List.pair_sublist_insertionSort (le_of_eq heq) (pair_sublist_range hij hj)
  have hrev := hpair.reverse
  simpa using hrev

/-- Witness for the amended C4 at a concrete tie. -/
theorem empate_orden_amended_witness :
    ((0:ℕ) < 1 ∧ 1 < ([(1:ℚ), 1] : List ℚ).length
      ∧ ([(1:ℚ), 1] : List ℚ).getD 0 0 = ([(1:ℚ), 1] : List ℚ).getD 1 0)
    ∧ List.Sublist [1, 0] (rankingDesc [(1:ℚ), 1]) :=
  ⟨⟨by decide, by decide, by decide⟩,
   empate_orden_amended [(1:ℚ), 1] 0 1 (by decide) (by decide) (by decide)⟩

/-- Claim C10 (confirmed): with an absent embedding index or a model without
an `encode` capability, the retriever returns the literal not-ready message —
a constant independent of query, documents and similarity function, so the
corpus is never consulted and nothing is raised. -/
theorem indice_ausente_no_listo (cosineSim : List ℚ → List ℚ → ℚ) (query : String)
    (m : EmbeddingModel) (documentos : List String)
    (corpusOpt : Option (List (List ℚ))) (top_k : ℕ) (umbral : ℚ)
    (h : corpusOpt = none ∨ m.hasEncode = false) :
    buscar_contexto_semantico cosineSim query m documentos corpusOpt top_k umbral
      = "La base de conocimientos no está lista." := by
  rcases h with h | h
  · subst h; rfl
  · cases corpusOpt with
    | none => rfl
    | some corpus => simp [buscar_contexto_semantico, h]

/-- Witness for C10 at a concrete call with a missing index. -/
theorem indice_ausente_no_listo_witness :
    ((none : Option (List (List ℚ))) = none ∨ modeloDemo.hasEncode = false)
    ∧ buscar_contexto_semantico headSim "q" modeloDemo ["A"] none 3 0
        = "La base de conocimientos no está lista." :=
  ⟨Or.inl rfl,
   indice_ausente_no_listo headSim "q" modeloDemo ["A"] none 3 0 (Or.inl rfl)⟩

/-!
### Claim about the prompt assembly
-/

/-- Claim C7 (confirmed): the assembled message list is one system message
embedding the retrieval context, followed by the non-system history
truncated to its most recent 10 turns: exactly one system message overall,
a tail of at most 10 messages, none of them system, and the tail is a
suffix (the most recent end) of the filtered history. -/
theorem historial_prompt (sp ctx : String) (mensajes : List Mensaje) :
    armar_historial_para_api sp ctx mensajes
        = ⟨"system", sp ++ "\n\nCONTEXTO RELEVANTE:\n" ++ ctx⟩
            :: lastN 10 (mensajesRelevantes mensajes)
    ∧ (armar_historial_para_api sp ctx mensajes).countP (fun m => m.role == "system") = 1
    ∧ (∀ m ∈ lastN 10 (mensajesRelevantes mensajes), m.role ≠ "system")
    ∧ (lastN 10 (mensajesRelevantes mensajes)).length ≤ 10
    ∧ (lastN 10 (mensajesRelevantes mensajes)) <:+ mensajesRelevantes mensajes := by
  have hmem : ∀ m ∈ lastN 10 (mensajesRelevantes mensajes), m.role ≠ "system" := by
    intro m hm
    have hm2 : m ∈ mensajesRelevantes mensajes := List.drop_subset _ _ hm
    have hp := (List.mem_filter.mp hm2).2
    simpa using hp
  refine ⟨rfl, ?_, hmem, ?_, ?_⟩
  · rw [armar_historial_para_api, List.countP_cons]
    have h0 : (lastN 10 (mensajesRelevantes mensajes)).countP (fun m => m.role == "system") = 0 := by
      rw [List.countP_eq_zero]
      intro m hm
      simpa using hmem m hm
    simp [h0]
  · rw [lastN, List.length_drop]
    omega
  · exact ⟨(mensajesRelevantes mensajes).take ((mensajesRelevantes mensajes).length - 10),
      List.take_append_drop _ _⟩

/-!
### Helper lemmas: the flattener
-/

/-- Inversion for a successful `Except` bind. -/
theorem exceptBind_ok_iff {ε α β : Type} {e : Except ε α} {f : α → Except ε β} {b : β} :
    (e >>= f) = Except.ok b ↔ ∃ a, e = Except.ok a ∧ f a = Except.ok b := by
  cases e with
  | error err => simp [Bind.bind, Except.bind]
  | ok a => simp [Bind.bind, Except.bind]

/-- Inversion for a successful `Except` map. -/
theorem exceptMap_ok_iff {ε α β : Type} {e : Except ε α} {f : α → β} {b : β} :
    e.map f = Except.ok b ↔ ∃ a, e = Except.ok a ∧ f a = b := by
  cases e with
  | error err => simp [Except.map]
  | ok a => simp [Except.map]

/-- A successful `mapM renderEvalItem` returns exactly the `evalLine`s. -/
theorem mapM_renderEvalItem :
    ∀ (l : List Val) (parts : List String),
      l.mapM renderEvalItem = Except.ok parts → parts = l.map evalLine := by
  intro l
  induction l with
  | nil =>
    intro parts h
    simp only [List.mapM_nil] at h
    have : ([] : List String) = parts := by simpa [Pure.pure, Except.pure] using h
    simp [this.symm]
  | cons e l ih =>
    intro parts h
    rw [List.mapM_cons] at h
    rcases exceptBind_ok_iff.mp h with ⟨s, hs, h2⟩
    rcases exceptBind_ok_iff.mp h2 with ⟨rest, hrest, h3⟩
    have hparts : s :: rest = parts := by simpa [Pure.pure, Except.pure] using h3
    have hse : s = evalLine e := by
      cases e with
      | vObj o => simpa [renderEvalItem] using hs.symm
      | vStr s' => simp [renderEvalItem] at hs
      | vArr a => simp [renderEvalItem] at hs
    rw [← hparts, hse, ih rest hrest, List.map_cons]

/-- A successful `renderSubject` yields the stripped `subjectText`. -/
theorem renderSubject_ok_eq {year name : String} {sd : Obj} {d : String}
    (h : renderSubject year name sd = Except.ok d) :
    d = pyStrip (subjectText year name sd) := by
  unfold renderSubject at h
  by_cases ht : truthy (getO sd "evaluaciones")
  · rw [if_pos ht] at h
    rcases exceptMap_ok_iff.mp h with ⟨parts, hparts, hd⟩
    have hpe := mapM_renderEvalItem _ parts hparts
    rw [← hd, hpe]
    unfold subjectText
    rw [if_pos ht, ← String.append_assoc]
  · rw [if_neg ht] at h
    have hd : pyStrip (subjectBase year name sd) = d := by
      simpa using h
    rw [← hd]
    unfold subjectText
    rw [if_neg ht, String.append_empty]

/-- One subject step only appends to the accumulated documents. -/
theorem subjStep_sub {year : String} {acc out : List String} {p : String × Val}
    (h : subjStep year acc p = Except.ok out) : ∀ x ∈ acc, x ∈ out := by
  intro x hx
  obtain ⟨name, v⟩ := p
  cases v with
  | vObj sd =>
    rcases exceptMap_ok_iff.mp h with ⟨d, _, hout⟩
    rw [← hout]
    exact List.mem_append.mpr (Or.inl hx)
  | vStr s => rw [(by simpa [subjStep] using h : acc = out)] at hx; exact hx
  | vArr l => rw [(by simpa [subjStep] using h : acc = out)] at hx; exact hx

/-- The subject loop only appends to the accumulated documents. -/
theorem subjFold_sub {year : String} :
    ∀ (l : Obj) (acc out : List String),
      l.foldlM (subjStep year) acc = Except.ok out → ∀ x ∈ acc, x ∈ out := by
  intro l
  induction l with
  | nil =>
    intro acc out h x hx
    have : acc = out := by simpa [Pure.pure, Except.pure] using h
    exact this ▸ hx
  | cons p l ih =>
    intro acc out h x hx
    rw [List.foldlM_cons] at h
    rcases exceptBind_ok_iff.mp h with ⟨mid, hmid, hfold⟩
    exact ih mid out hfold x (subjStep_sub hmid x hx)

/-- A subject present in the loop's input contributes its rendering to the
output of a successful subject loop. -/
theorem subjFold_mem {year : String} :
    ∀ (l : Obj) (acc out : List String) (name : String) (sd : Obj),
      (name, Val.vObj sd) ∈ l → l.foldlM (subjStep year) acc = Except.ok out →
      ∃ d, renderSubject year name sd = Except.ok d ∧ d ∈ out := by
  intro l
  induction l with
  | nil => intro acc out name sd hmem; simp at hmem
  | cons p l ih =>
    intro acc out name sd hmem h
    rw [List.foldlM_cons] at h
    rcases exceptBind_ok_iff.mp h with ⟨mid, hmid, hfold⟩
    rcases List.mem_cons.mp hmem with hp | hp
    · subst hp
      rcases exceptMap_ok_iff.mp hmid with ⟨d, hrender, hout⟩
      refine ⟨d, hrender, ?_⟩
      refine subjFold_sub l mid out hfold d ?_
      rw [← hout]
      exact List.mem_append.mpr (Or.inr (List.mem_singleton.mpr rfl))
    · exact ih mid out name sd hp hfold

/-- One year step only appends to the accumulated documents. -/
theorem yearStep_sub {acc out : List String} {p : String × Val}
    (h : yearStep acc p = Except.ok out) : ∀ x ∈ acc, x ∈ out := by
  unfold yearStep at h
  rcases exceptBind_ok_iff.mp h with ⟨subjects, _, hfold⟩
  exact subjFold_sub subjects acc out hfold

/-- The year loop only appends to the accumulated documents. -/
theorem yearFold_sub :
    ∀ (years : Obj) (acc out : List String),
      years.foldlM yearStep acc = Except.ok out → ∀ x ∈ acc, x ∈ out := by
  intro years
  induction years with
  | nil =>
    intro acc out h x hx
    have : acc = out := by simpa [Pure.pure, Except.pure] using h
    exact this ▸ hx
  | cons p years ih =>
    intro acc out h x hx
    rw [List.foldlM_cons] at h
    rcases exceptBind_ok_iff.mp h with ⟨mid, hmid, hfold⟩
    exact ih mid out hfold x (yearStep_sub hmid x hx)

/-- A subject reachable through the year loop contributes its rendering to
the output of a successful year loop. -/
theorem yearFold_mem :
    ∀ (years : Obj) (acc out : List String) (year name : String) (subjects sd : Obj),
      (year, Val.vObj subjects) ∈ years → (name, Val.vObj sd) ∈ subjects →
      years.foldlM yearStep acc = Except.ok out →
      ∃ d, renderSubject year name sd = Except.ok d ∧ d ∈ out := by
  intro years
  induction years with
  | nil => intro acc out year name subjects sd hy; simp at hy
  | cons p years ih =>
    intro acc out year name subjects sd hy hs h
    rw [List.foldlM_cons] at h
    rcases exceptBind_ok_iff.mp h with ⟨mid, hmid, hfold⟩
    rcases List.mem_cons.mp hy with hp | hp
    · subst hp
      unfold yearStep at hmid
      rcases exceptBind_ok_iff.mp hmid with ⟨subjects2, hsub, hsfold⟩
      have hss : subjects2 = subjects := by simpa [asItems] using hsub.symm
      subst hss
      rcases subjFold_mem subjects2 acc mid name sd hs hsfold with ⟨d, hrender, hdm⟩
      exact ⟨d, hrender, yearFold_sub years mid out hfold d hdm⟩
    · exact ih mid out year name subjects sd hp hs hfold

/-- A character occurring in the left part occurs in an appended string. -/
theorem mem_data_append_left {c : Char} {a b : String} (h : c ∈ a.data) :
    c ∈ (a ++ b).data := by
  rw [String.data_append]
  exact List.mem_append.mpr (Or.inl h)

/-- The subject text always starts with the `Materia` label, so it contains
the non-whitespace character `M`. -/
theorem subjectText_has_M (year name : String) (sd : Obj) :
    'M' ∈ (subjectText year name sd).data := by
  unfold subjectText subjectBase
  repeat apply mem_data_append_left
  decide

/-- An element not satisfying the predicate survives `dropWhile`. -/
theorem mem_dropWhile_of_not {α : Type} (p : α → Bool) :
    ∀ (l : List α) (c : α), c ∈ l → p c = false → c ∈ l.dropWhile p := by
  intro l
  induction l with
  | nil => intro c hc; simp at hc
  | cons a l ih =>
    intro c hc hpc
    rw [List.dropWhile_cons]
    by_cases hpa : p a = true
    · rw [if_pos hpa]
      rcases List.mem_cons.mp hc with hc | hc
      · subst hc; rw [hpc] at hpa; cases hpa
      · exact ih c hc hpc
    · rw [if_neg hpa]
      exact hc

/-- A string containing a non-whitespace character does not strip to the
empty string. -/
theorem pyStrip_ne_empty {s : String} {c : Char} (hc : c ∈ s.data)
    (hcs : isPySpace c = false) : pyStrip s ≠ "" := by
  intro h
  have hdata : (((s.data.dropWhile isPySpace).reverse.dropWhile isPySpace).reverse)
      = [] := congrArg String.data h
  have h1 := mem_dropWhile_of_not isPySpace s.data c hc hcs
  have h2 := List.mem_reverse.mpr h1
  have h3 := mem_dropWhile_of_not isPySpace _ c h2 hcs
  have h4 := List.mem_reverse.mpr h3
  rw [hdata] at h4
  simp at h4

/-- Data of a fold of string appends. -/
theorem strFoldlAppend_data :
    ∀ (l : List String) (s : String),
      (l.foldl (fun r t => r ++ t) s).data = s.data ++ (l.map String.data).flatten := by
  intro l
  induction l with
  | nil => intro s; simp
  | cons a l ih =>
    intro s
    rw [List.foldl_cons, ih (s ++ a)]
    simp [String.data_append]

/-- Data of `String.join`. -/
theorem strJoin_data (l : List String) :
    (String.join l).data = (l.map String.data).flatten := by
  have h := strFoldlAppend_data l ""
  rw [show String.join l = l.foldl (fun r t => r ++ t) "" from rfl, h]
  rfl

/-- An element of the list contributes a contiguous run to the joined map. -/
theorem join_map_decomp {α : Type} (f : α → String) :
    ∀ (l : List α) (x : α), x ∈ l →
      ∃ u v, (String.join (l.map f)).data = u ++ (f x).data ++ v := by
  intro l
  induction l with
  | nil => intro x hx; simp at hx
  | cons a l ih =>
    intro x hx
    have hdata : (String.join (List.map f (a :: l))).data
        = (f a).data ++ (String.join (List.map f l)).data := by
      rw [List.map_cons, strJoin_data, strJoin_data, List.map_cons, List.flatten_cons]
    rcases List.mem_cons.mp hx with hx | hx
    · subst hx
      exact ⟨[], (String.join (List.map f l)).data, by rw [hdata]; simp⟩
    · rcases ih x hx with ⟨u, v, huv⟩
      exact ⟨(f a).data ++ u, v, by rw [hdata, huv]; simp [List.append_assoc]⟩

/-- The instructor segment is a contiguous part of the subject text. -/
theorem subjectText_profesor (year name : String) (sd : Obj) :
    ∃ u v, (subjectText year name sd).data
      = u ++ ("Profesor/a: " ++ pyGetStrD sd "profesor" "No asignado" ++ ". ").data ++ v := by
  refine ⟨("Materia: " ++ pyTitle (replaceUS name) ++ " de " ++ replaceUS year ++ ". "
      ++ pyGetStrD sd "content" "" ++ " ").data,
    (if truthy (getO sd "evaluaciones") then
      "Próximas Evaluaciones: " ++
        String.join ((pyIter ((getO sd "evaluaciones").getD (Val.vArr []))).map evalLine)
     else "").data, ?_⟩
  unfold subjectText subjectBase
  simp [String.data_append, List.append_assoc]

/-- Each iterated evaluation item renders as a contiguous part of the
subject text when the evaluation block is emitted. -/
theorem subjectText_evals (year name : String) (sd : Obj)
    (ht : truthy (getO sd "evaluaciones") = true) :
    ∀ e ∈ pyIter ((getO sd "evaluaciones").getD (Val.vArr [])),
      ∃ u v, (subjectText year name sd).data = u ++ (evalLine e).data ++ v := by
  intro e he
  rcases join_map_decomp evalLine _ e he with ⟨u, v, huv⟩
  rw [strJoin_data, List.map_map] at huv
  refine ⟨(subjectBase year name sd ++ "Próximas Evaluaciones: ").data ++ u, v, ?_⟩
  unfold subjectText
  rw [if_pos ht]
  simp [String.data_append, huv, List.append_assoc]

/-- A skipped top-level entry leaves the first loop's accumulator alone. -/
theorem topStep_skip {t : String} {v : Val} (ht : t ≠ "material_academico")
    (hv : skippedTop v = true) : ∀ acc, topStep acc (t, v) = acc := by
  intro acc
  unfold topStep
  rw [if_neg (by simpa using ht)]
  cases v with
  | vObj o =>
    have hk : hasKey o "content" = false := by simpa [skippedTop] using hv
    simp [hk]
  | vStr s => rfl
  | vArr l => rfl

/-- Removing an entry with a different key does not change a lookup. -/
theorem getO_middle_skip (pre post : Obj) (t k : String) (v : Val) (htk : t ≠ k) :
    getO (pre ++ (t, v) :: post) k = getO (pre ++ post) k := by
  induction pre with
  | nil =>
    simp only [List.nil_append]
    unfold getO
    rw [List.find?_cons_of_neg _ (by simpa using htk)]
  | cons a pre ih =>
    simp only [List.cons_append]
    unfold getO at ih ⊢
    simp only [List.find?]
    cases hpa : a.1 == k
    · simp only [hpa]
      exact ih
    · simp only [hpa]

/-- Removing a skipped top-level entry does not change the first loop. -/
theorem topDocs_middle_skip (pre post : Obj) (t : String) (v : Val)
    (ht : t ≠ "material_academico") (hv : skippedTop v = true) :
    topDocs (pre ++ (t, v) :: post) = topDocs (pre ++ post) := by
  unfold topDocs
  rw [List.foldl_append, List.foldl_append, List.foldl_cons, topStep_skip ht hv]

/-!
### Claims about the flattener and the loader
-/

/-- Claim C5 (confirmed): the flattener is deterministic — its output is a
pure function of the document alone.  The embedding is a pure function, and
it mirrors the only iteration the source performs: Python dict iteration in
insertion order (deterministic since Python 3.7), modelled by the ordered
association list; no other source of order or nondeterminism exists in
lines 43-74, so two calls on the same unchanged document give byte-identical
document-text sequences. -/
theorem aplanar_determinista (d₁ d₂ : Option Obj) (h : d₁ = d₂) :
    aplanar_conocimiento d₁ = aplanar_conocimiento d₂ :=
  congrArg aplanar_conocimiento h

/-- Witness for C5: two runs on the concrete demo document. -/
theorem aplanar_determinista_witness :
    (some baseDemo = some baseDemo)
    ∧ aplanar_conocimiento (some baseDemo) = aplanar_conocimiento (some baseDemo) :=
  ⟨rfl, aplanar_determinista (some baseDemo) (some baseDemo) rfl⟩

set_option maxRecDepth 8192 in
/-- Counterexample to claim C6 as stated: for the concrete subject `sdDemo`
— which carries a topic-notes entry `apuntes` with a name and a link — the
flattener's synthesized text has both evaluations inline (the whole text
contains no newline, so nothing is rendered as a separate line) and
contains no trace of the note name or link: topic notes are not rendered at
all. -/
theorem texto_materia_cex :
    aplanar_conocimiento (some baseDemo) = Except.ok [docDemo]
    ∧ hasSubstr docDemo "Fecha: 10/06, Temas: Álgebra" = true
    ∧ hasSubstr docDemo "Fecha: 12/07, Temas: Geometría" = true
    ∧ hasSubstr docDemo "Profesor/a: Juan Pérez" = true
    ∧ hasSubstr docDemo "\n" = false
    ∧ hasSubstr docDemo "https://ejemplo.com/guia1" = false
    ∧ hasSubstr docDemo "Guía 1" = false :=
  ⟨rfl, rfl, rfl, rfl, rfl, rfl, rfl⟩

/-- Claim C6 as amended: for every subject record reachable in the
`material_academico` section of a successfully flattened document, the
output contains the subject's synthesized text: the stripped concatenation
of the `Materia` title, the content, the instructor rendering (`profesor`
or the literal `No asignado`), and — when the `evaluaciones` entry is
truthy — one inline `Fecha: ..., Temas: ...` segment per evaluation item,
with the instructor segment and each evaluation segment contiguous in that
text; topic notes are not part of the rendering and no per-item newlines
are introduced. -/
theorem texto_materia_amended (base yearsObj subjects sd : Obj) (year name : String)
    (docs : List String)
    (hload : aplanar_conocimiento (some base) = Except.ok docs)
    (hmat : getO base "material_academico" = some (Val.vObj yearsObj))
    (hy : (year, Val.vObj subjects) ∈ yearsObj)
    (hs : (name, Val.vObj sd) ∈ subjects) :
    ∃ d, d ∈ docs ∧ d = pyStrip (subjectText year name sd)
      ∧ (∃ u v, (subjectText year name sd).data
          = u ++ ("Profesor/a: " ++ pyGetStrD sd "profesor" "No asignado" ++ ". ").data ++ v)
      ∧ (truthy (getO sd "evaluaciones") = true →
          ∀ e ∈ pyIter ((getO sd "evaluaciones").getD (Val.vArr [])),
            ∃ u v, (subjectText year name sd).data = u ++ (evalLine e).data ++ v) := by
  unfold aplanar_conocimiento at hload
  rcases exceptBind_ok_iff.mp hload with ⟨docs0, hacad, hfil⟩
  have hdocs : docs = docs0.filter (fun d => !(d == "")) := by
    simpa using hfil.symm
  unfold acadDocs at hacad
  rw [hmat] at hacad
  rcases exceptBind_ok_iff.mp hacad with ⟨years, hyears, hfold⟩
  have hyy : years = yearsObj := by simpa [asItems] using hyears.symm
  subst hyy
  rcases yearFold_mem years (topDocs base) docs0 year name subjects sd hy hs hfold
    with ⟨d, hrender, hmem⟩
  have hd : d = pyStrip (subjectText year name sd) := renderSubject_ok_eq hrender
  refine ⟨d, ?_, hd, subjectText_profesor year name sd,
    fun ht => subjectText_evals year name sd ht⟩
  rw [hdocs]
  refine List.mem_filter.mpr ⟨hmem, ?_⟩
  have hne : d ≠ "" := by
    rw [hd]
    exact pyStrip_ne_empty (subjectText_has_M year name sd) (by decide)
  simpa using hne

/-- Witness for the amended C6 on the concrete demo document. -/
theorem texto_materia_amended_witness :
    ∃ d, d ∈ [docDemo] ∧ d = pyStrip (subjectText "2024" "matematica" sdDemo)
      ∧ (∃ u v, (subjectText "2024" "matematica" sdDemo).data
          = u ++ ("Profesor/a: " ++ pyGetStrD sdDemo "profesor" "No asignado" ++ ". ").data ++ v)
      ∧ (truthy (getO sdDemo "evaluaciones") = true →
          ∀ e ∈ pyIter ((getO sdDemo "evaluaciones").getD (Val.vArr [])),
            ∃ u v, (subjectText "2024" "matematica" sdDemo).data = u ++ (evalLine e).data ++ v) :=
  texto_materia_amended baseDemo [("2024", Val.vObj [("matematica", Val.vObj sdDemo)])]
    [("matematica", Val.vObj sdDemo)] sdDemo "2024" "matematica" [docDemo]
    rfl rfl (List.mem_singleton.mpr rfl) (List.mem_singleton.mpr rfl)

/-- Counterexample to claim C9 as stated: the top-level entry under the
reserved key `material_academico` holding a non-mapping is not silently
skipped — `.items()` on it raises, so the flattener is not total at its
public interface. -/
theorem aplanar_total_cex :
    aplanar_conocimiento (some [("material_academico", Val.vStr "oops")])
      = Except.error "AttributeError: items" := rfl

/-- Claim C9 as amended: the flattener maps a missing document (`None`) to
the empty sequence, and silently skips any top-level entry other than the
reserved `material_academico` key that is not a mapping or lacks a
`content` field (removing such an entry leaves the result — including
success or failure — unchanged); a non-mapping under the reserved key
itself is outside this guarantee and raises. -/
theorem aplanar_total_amended :
    aplanar_conocimiento none = Except.ok []
    ∧ ∀ (pre post : Obj) (t : String) (v : Val),
        t ≠ "material_academico" → skippedTop v = true →
        aplanar_conocimiento (some (pre ++ (t, v) :: post))
          = aplanar_conocimiento (some (pre ++ post)) := by
  refine ⟨rfl, ?_⟩
  intro pre post t v ht hv
  simp only [aplanar_conocimiento]
  rw [topDocs_middle_skip pre post t v ht hv]
  simp only [acadDocs]
  rw [getO_middle_skip pre post t "material_academico" v ht]

/-- Witness for the amended C9: removing a concrete skipped entry leaves
the flattener's output unchanged. -/
theorem aplanar_total_amended_witness :
    ("saludo" ≠ "material_academico" ∧ skippedTop (Val.vStr "hola") = true)
    ∧ aplanar_conocimiento (some ([] ++ ("saludo", Val.vStr "hola")
        :: [("info_general", Val.vObj [("content", Val.vStr "x")])]))
      = aplanar_conocimiento (some ([] ++ [("info_general", Val.vObj [("content", Val.vStr "x")])])) :=
  ⟨⟨by decide, rfl⟩,
   aplanar_total_amended.2 [] [("info_general", Val.vObj [("content", Val.vStr "x")])]
     "saludo" (Val.vStr "hola") (by decide) rfl⟩

/-- Counterexample to claim C8 as stated: a missing file and an unparsable
file produce the identical caller-visible return value `none`, so the two
failure kinds are not distinguishable by the caller. -/
theorem cargar_indistinguible_cex :
    (cargar_base_de_conocimiento (fun _ => none) (fun _ => none) "conocimiento.json").1 = none
    ∧ (cargar_base_de_conocimiento (fun _ => some "esto no es json") (fun _ => none)
        "conocimiento.json").1 = none
    ∧ (cargar_base_de_conocimiento (fun _ => none) (fun _ => none) "conocimiento.json").1
        = (cargar_base_de_conocimiento (fun _ => some "esto no es json") (fun _ => none)
            "conocimiento.json").1 :=
  ⟨rfl, rfl, rfl⟩

/-- Claim C8 as amended: the loader either returns the parsed document (no
message displayed), or returns `none` after displaying the file-not-found
message, or returns `none` after displaying the invalid-JSON message — no
other outcome; the two failure kinds share the caller-visible value `none`
and are told apart only by the displayed message text, which does differ
between them. -/
theorem cargar_resultados_amended (fs : String → Option String)
    (parseJson : String → Option Val) (ruta : String) :
    (fs ruta = none →
      cargar_base_de_conocimiento fs parseJson ruta = (none, [msgNotFound ruta]))
    ∧ (∀ c, fs ruta = some c → parseJson c = none →
      cargar_base_de_conocimiento fs parseJson ruta = (none, [msgBadJson ruta]))
    ∧ (∀ c v, fs ruta = some c → parseJson c = some v →
      cargar_base_de_conocimiento fs parseJson ruta = (some v, []))
    ∧ msgNotFound ruta ≠ msgBadJson ruta := by
  have c1 : ("Error Crítico: No se encontró el archivo '" : String).data.length = 42 := by decide
  have c2 : ("'." : String).data.length = 2 := by decide
  have c3 : ("Error Crítico: El archivo '" : String).data.length = 27 := by decide
  have c4 : ("' no tiene un formato JSON válido." : String).data.length = 34 := by decide
  refine ⟨?_, ?_, ?_, ?_⟩
  · intro h
    unfold cargar_base_de_conocimiento
    rw [h]
  · intro c hc hp
    unfold cargar_base_de_conocimiento
    simp only [hc, hp]
  · intro c v hc hp
    unfold cargar_base_de_conocimiento
    simp only [hc, hp]
  · intro h
    have h2 := congrArg (fun s => s.data.length) h
    simp only [msgNotFound, msgBadJson, String.data_append, List.length_append] at h2
    rw [c1, c2, c3, c4] at h2
    omega

/-- Witness for the amended C8 at concrete failing and succeeding runs. -/
theorem cargar_resultados_amended_witness :
    cargar_base_de_conocimiento (fun _ => none) (fun _ => none) "conocimiento.json"
        = (none, [msgNotFound "conocimiento.json"])
    ∧ cargar_base_de_conocimiento (fun _ => some "esto no es json") (fun _ => none)
        "conocimiento.json" = (none, [msgBadJson "conocimiento.json"])
    ∧ msgNotFound "conocimiento.json" ≠ msgBadJson "conocimiento.json" :=
  ⟨(cargar_resultados_amended (fun _ => none) (fun _ => none) "conocimiento.json").1 rfl,
   (cargar_resultados_amended (fun _ => some "esto no es json") (fun _ => none)
      "conocimiento.json").2.1 "esto no es json" rfl rfl,
   (cargar_resultados_amended (fun _ => none) (fun _ => none) "conocimiento.json").2.2.2⟩
